import Mathlib

/-!
Verification of the chain-state and chain-history access layer of the
tama-tools repository (TypeScript), against its natural-language
specification.  Each TypeScript function relevant to the checked claims is
shallowly embedded as an executable Lean definition that mirrors the source
control flow; theorems then settle the claims.

Conventions of the embedding:
* JavaScript `number` block indices are modeled as `Int` (all arithmetic the
  code performs on them is exact integer arithmetic).
* `bigint` values are modeled as `Int`.
* Network capabilities (`provider.getCode`, `queryFilter`, ...) are passed in
  as explicit oracle arguments.
* A `while` loop is modeled as a fuel-indexed recursion; `none` marks fuel
  exhaustion, which a termination theorem rules out for sufficient fuel.
-/

namespace TamaTools

/-! ## Creation-block locator (src/token-find-creation-block.ts and
    src/token-info/test-token-info-optimized.ts, `findTokenCreationBlock`)

The probe models one call of `provider.getCode(tokenAddress, blockNumber)`:
it can report deployed code (a string other than "0x"), report no code
("0x"), or throw.  The TypeScript loop treats a thrown probe exactly like an
absent-code probe (`lowBlock = midBlock + 1` in the catch branch). -/

/-- Outcome of one `getCode` probe at a block. -/
inductive Probe where
  | present
  | absent
  | err
deriving DecidableEq, Repr

/-- The `while (lowBlock <= highBlock)` loop of `findTokenCreationBlock`,
with state (lowBlock, highBlock, foundBlock) and explicit fuel.  `none` means
the fuel ran out.  `(low + high) / 2` is Euclidean division, which on every
reachable state (`0 ≤ low ≤ high`) coincides with the JavaScript
`Math.floor((lowBlock + highBlock) / 2)`. -/
def searchLoop (probe : Int → Probe) : Int → Int → Option Int → Nat → Option (Option Int)
  | _, _, _, 0 => none
  | low, high, found, fuel + 1 =>
    if low ≤ high then
      match probe ((low + high) / 2) with
      | Probe.present => searchLoop probe low ((low + high) / 2 - 1) (some ((low + high) / 2)) fuel
      | Probe.absent => searchLoop probe ((low + high) / 2 + 1) high found fuel
      | Probe.err => searchLoop probe ((low + high) / 2 + 1) high found fuel
    else
      some found

/-- Result of `findTokenCreationBlock`: the returned block, or one of the
thrown errors ("Address is not a contract", "Could not determine creation
block", a propagated failure of the initial `getCode`), or fuel exhaustion
(a modeling artifact, impossible with sufficient fuel). -/
inductive CreationBlockResult where
  | found (block : Int)
  | notAContract
  | couldNotDetermine
  | initialProbeFailed
  | fuelExhausted
deriving DecidableEq, Repr

/-- Embedding of `findTokenCreationBlock`: first a `getCode` probe at the
latest block (no block tag), throwing "Address is not a contract" when it
reports no code; then the binary-search loop from `lowBlock = 0` to
`highBlock = latestBlock`; finally "Could not determine creation block" when
`foundBlock` is still null. -/
def findTokenCreationBlock (probe : Int → Probe) (latestBlock : Int) (fuel : Nat) :
    CreationBlockResult :=
  match probe latestBlock with
  | Probe.absent => CreationBlockResult.notAContract
  | Probe.err => CreationBlockResult.initialProbeFailed
  | Probe.present =>
    match searchLoop probe 0 latestBlock none fuel with
    | none => CreationBlockResult.fuelExhausted
    | some none => CreationBlockResult.couldNotDetermine
    | some (some b) => CreationBlockResult.found b

/-- Invariant lemma for the loop under a monotone "code exists from block K
onward" oracle: started anywhere inside the invariant region, the loop ends
with `foundBlock = K`.  The invariant: `low ≤ K`; while nothing was found yet
`K ≤ high`; once `foundBlock = f` is set, `K ≤ f` and `f = high + 1`. -/
theorem searchLoop_oracle_exact (probe : Int → Probe) (K latestBlock : Int)
    (hp : ∀ b, 0 ≤ b → b ≤ latestBlock →
      probe b = if K ≤ b then Probe.present else Probe.absent) :
    ∀ (fuel : Nat) (low high : Int) (found : Option Int),
      0 ≤ low → high ≤ latestBlock → low ≤ K →
      (found = none → K ≤ high) →
      (∀ f, found = some f → K ≤ f ∧ f = high + 1) →
      (high - low + 1).toNat < fuel →
      searchLoop probe low high found fuel = some (some K) := by
  intro fuel
  induction fuel with
  | zero =>
    intro low high found _ _ _ _ _ hfuel
    omega
  | succ n ih =>
    intro low high found hlow hhigh hlowK hnone hsome hfuel
    by_cases hcond : low ≤ high
    · have hmid1 : low ≤ (low + high) / 2 := by omega
      have hmid2 : (low + high) / 2 ≤ high := by omega
      have hp' : probe ((low + high) / 2) =
          if K ≤ (low + high) / 2 then Probe.present else Probe.absent :=
        hp _ (by omega) (by omega)
      by_cases hKm : K ≤ (low + high) / 2
      · rw [if_pos hKm] at hp'
        rw [searchLoop, if_pos hcond, hp']
        refine ih low ((low + high) / 2 - 1) (some ((low + high) / 2)) hlow (by omega) hlowK ?_ ?_ (by omega)
        · intro h
          exact absurd h (by simp)
        · intro f hf
          have : f = (low + high) / 2 := by injection hf with h; omega
          constructor
          · omega
          · omega
      · rw [if_neg hKm] at hp'
        rw [searchLoop, if_pos hcond, hp']
        exact ih ((low + high) / 2 + 1) high found (by omega) hhigh (by omega) hnone hsome (by omega)
    · rw [searchLoop, if_neg hcond]
      match found, hsome with
      | none, _ =>
        exfalso
        have := hnone rfl
        omega
      | some f, hsome =>
        have hf := hsome f rfl
        have : f = K := by omega
        rw [this]

/-- C1: for every block number K with 0 ≤ K ≤ latestBlock and every monotone
code-presence oracle reporting no code below K and code from K up to
latestBlock, `findTokenCreationBlock` returns exactly K. -/
theorem findTokenCreationBlock_exact (probe : Int → Probe) (K latestBlock : Int) (fuel : Nat)
    (hK0 : 0 ≤ K) (hKle : K ≤ latestBlock)
    (horacle : ∀ b, 0 ≤ b → b ≤ latestBlock →
      probe b = if K ≤ b then Probe.present else Probe.absent)
    (hfuel : (latestBlock + 1).toNat < fuel) :
    findTokenCreationBlock probe latestBlock fuel = CreationBlockResult.found K := by
  have hlatest : probe latestBlock = Probe.present := by
    rw [horacle latestBlock (by omega) le_rfl, if_pos hKle]
  have hloop : searchLoop probe 0 latestBlock none fuel = some (some K) := by
    refine searchLoop_oracle_exact probe K latestBlock horacle fuel 0 latestBlock none le_rfl le_rfl hK0 ?_ ?_ (by omega)
    · intro _
      exact hKle
    · intro f hf
      exact absurd hf (by simp)
  rw [findTokenCreationBlock, hlatest, hloop]

/-- Witness for C1: with the oracle "code exists from block 3 onward" on a
chain whose latest block is 10, the locator returns exactly block 3. -/
theorem findTokenCreationBlock_exact_witness :
    findTokenCreationBlock (fun b => if 3 ≤ b then Probe.present else Probe.absent) 10 12 =
      CreationBlockResult.found 3 :=
  findTokenCreationBlock_exact (fun b => if 3 ≤ b then Probe.present else Probe.absent)
    3 10 12 (by decide) (by decide) (fun _ _ _ => rfl) (by decide)

/-- C9: the binary-search loop terminates for every probe behavior (present,
absent or throwing, arbitrarily): whenever the fuel exceeds the size of the
interval [lowBlock, highBlock], the loop never exhausts it, because the
interval strictly shrinks in every iteration.  Since the loop never probes
the same block twice, an arbitrary per-call probe behavior is represented by
a per-block oracle without loss of generality; the theorem quantifies over
all such oracles. -/
theorem searchLoop_terminates (probe : Int → Probe) :
    ∀ (fuel : Nat) (low high : Int) (found : Option Int),
      (high - low + 1).toNat < fuel →
      searchLoop probe low high found fuel ≠ none := by
  intro fuel
  induction fuel with
  | zero =>
    intro low high found hfuel
    omega
  | succ n ih =>
    intro low high found hfuel
    by_cases hcond : low ≤ high
    · rw [searchLoop, if_pos hcond]
      have hmid1 : low ≤ (low + high) / 2 := by omega
      have hmid2 : (low + high) / 2 ≤ high := by omega
      match probe ((low + high) / 2) with
      | Probe.present => exact ih low ((low + high) / 2 - 1) (some ((low + high) / 2)) (by omega)
      | Probe.absent => exact ih ((low + high) / 2 + 1) high found (by omega)
      | Probe.err => exact ih ((low + high) / 2 + 1) high found (by omega)
    · rw [searchLoop, if_neg hcond]
      exact fun h => Option.noConfusion h

/-- Witness for C9: with a probe that always throws, the loop on interval
[0, 5] with fuel 7 does not exhaust its fuel. -/
theorem searchLoop_terminates_witness :
    searchLoop (fun _ => Probe.err) 0 5 none 7 ≠ none :=
  searchLoop_terminates (fun _ => Probe.err) 7 0 5 none (by decide)

/-! ## Bounded event scan and metadata reader (src/token-info/getTokenInfo.ts
    `getTokenMetadata`, and the updated version of it proposed in the
    repository's proposed-updates document)

The chain is modeled as the ascending-by-block list of events matching the
`TokenCreated(null, tokenAddress)` filter; `queryEvents` models one
`queryFilter`/`eth_getLogs` call, returning the events of the chain whose
block number lies in the inclusive requested range, in chain order. -/

/-- Decoded `args` of a TokenCreated event, as read by the code. -/
structure EventArgs where
  name : String
  symbol : String
  description : String
  extended : String
  tokenUrlImage : String
deriving DecidableEq, Repr

/-- One event returned by `queryFilter`; `args` is optional because the code
guards against events whose arguments failed to decode. -/
structure TokenEvent where
  blockNumber : Int
  args : Option EventArgs
deriving DecidableEq, Repr

/-- The TokenMetadata record assembled by `getTokenMetadata`. -/
structure TokenMetadata where
  name : String
  symbol : String
  description : String
  extended : String
  imageUrl : String
deriving DecidableEq, Repr

/-- The field mapping performed by the return statement of
`getTokenMetadata` (`imageUrl := args.tokenUrlImage`). -/
def argsToMetadata (a : EventArgs) : TokenMetadata :=
  { name := a.name
    symbol := a.symbol
    description := a.description
    extended := a.extended
    imageUrl := a.tokenUrlImage }

/-- One `queryFilter(filter, fromBlock, toBlock)` call against the chain. -/
def queryEvents (chain : List TokenEvent) (fromBlock toBlock : Int) : List TokenEvent :=
  chain.filter (fun e => decide (fromBlock ≤ e.blockNumber) && decide (e.blockNumber ≤ toBlock))

/-- An inclusive block range of one event query. -/
structure BlockRange where
  fromBlock : Int
  toBlock : Int
deriving DecidableEq, Repr

/-- Number of blocks an inclusive event query spans. -/
def BlockRange.span (q : BlockRange) : Int :=
  q.toBlock - q.fromBlock + 1

/-- The provider-imposed ceiling on blocks per event query (the Ronin RPC
enforces 500, per the repository's block-limit documentation). -/
def maxBlockRange : Int := 500

/-- Search range of the shipped `getTokenMetadata` in getTokenInfo.ts:
`fromBlock = Math.max(0, currentBlock - 10000)`, and `queryFilter` is called
without a toBlock, i.e. up to the latest block. -/
def srcMetadataRange (currentBlock : Int) : BlockRange :=
  { fromBlock := max 0 (currentBlock - 10000), toBlock := currentBlock }

/-- Search range of the updated `getTokenMetadata` of the proposed-updates
document: an optional explicit fromBlock, defaulting to
`Math.max(0, currentBlock - 499)`, then
`toBlock = Math.min(currentBlock, fromBlock + 499)`. -/
def updatedMetadataRange (currentBlock : Int) (fromBlockOpt : Option Int) : BlockRange :=
  { fromBlock := (fromBlockOpt.getD (max 0 (currentBlock - 499)))
    toBlock := min currentBlock ((fromBlockOpt.getD (max 0 (currentBlock - 499))) + 499) }

/-- The list of event queries the updated `getTokenMetadata` issues for one
call: exactly one `queryFilter` call over its clamped range. -/
def updatedMetadataQueries (currentBlock : Int) (fromBlockOpt : Option Int) : List BlockRange :=
  [updatedMetadataRange currentBlock fromBlockOpt]

/-- The failures `getTokenMetadata` can throw. -/
inductive MetadataError where
  | notFound
  | notFoundInRange
  | noArgs
deriving DecidableEq, Repr

/-- Embedding of the shipped `getTokenMetadata` (getTokenInfo.ts): one query
over the last 10000 blocks; empty result throws "No creation event found";
otherwise the last element of the result list is selected and its args are
returned as metadata. -/
def getTokenMetadataSrc (chain : List TokenEvent) (currentBlock : Int) :
    Except MetadataError TokenMetadata :=
  match (queryEvents chain (srcMetadataRange currentBlock).fromBlock
      (srcMetadataRange currentBlock).toBlock).getLast? with
  | none => Except.error MetadataError.notFound
  | some e =>
    match e.args with
    | none => Except.error MetadataError.noArgs
    | some a => Except.ok (argsToMetadata a)

/-- Embedding of the updated `getTokenMetadata` of the proposed-updates
document: a single query over the clamped range; an empty result throws the
"consider using an earlier fromBlock value" error when `fromBlock > 0` and
the plain not-found error otherwise. -/
def getTokenMetadataUpdated (chain : List TokenEvent) (currentBlock : Int)
    (fromBlockOpt : Option Int) : Except MetadataError TokenMetadata :=
  match (queryEvents chain (updatedMetadataRange currentBlock fromBlockOpt).fromBlock
      (updatedMetadataRange currentBlock fromBlockOpt).toBlock).getLast? with
  | none =>
    Except.error
      (if (updatedMetadataRange currentBlock fromBlockOpt).fromBlock > 0 then
        MetadataError.notFoundInRange
      else MetadataError.notFound)
  | some e =>
    match e.args with
    | none => Except.error MetadataError.noArgs
    | some a => Except.ok (argsToMetadata a)

/-- Counterexample to C2: requesting range [0, 2000] (current block 2000,
explicit fromBlock 0, exceeding maxBlockRange) against a chain whose only
creation event sits at block 600, the scanner issues the single clamped
query [0, 499]; the concatenation of the issued queries' results, restricted
to [0, 2000], is empty, while the unchunked query over [0, 2000] returns the
event.  The code does not split the requested range into chunks. -/
theorem metadataScan_not_chunked_counterexample :
    (2000 : Int) - 0 > maxBlockRange ∧
    updatedMetadataQueries 2000 (some 0) = [{ fromBlock := 0, toBlock := 499 }] ∧
    (((updatedMetadataQueries 2000 (some 0)).map
        (fun q => queryEvents [{ blockNumber := 600, args := none }] q.fromBlock q.toBlock)).flatten.filter
        (fun e => decide (0 ≤ e.blockNumber) && decide (e.blockNumber ≤ 2000))
      = []) ∧
    queryEvents [{ blockNumber := 600, args := none }] 0 2000
      = [{ blockNumber := 600, args := none }] ∧
    ([] : List TokenEvent) ≠ [{ blockNumber := 600, args := none }] := by
  refine ⟨by decide, by decide, by decide, by decide, by decide⟩

/-- C2 as amended: for a requested range [a, b] with b - a > maxBlockRange
(current block b, explicit fromBlock a ≥ 0), the updated scanner issues a
single event query, spanning at most maxBlockRange blocks, over
[a, a + 499]; the concatenation of the issued queries' results equals the
unchunked query over [a, b] restricted to blocks at most a + 499 — events in
the remainder of the requested range are not scanned. -/
theorem metadataScan_single_clamped_query (chain : List TokenEvent) (a b : Int)
    (h0 : 0 ≤ a) (hgt : b - a > maxBlockRange) :
    updatedMetadataQueries b (some a) = [{ fromBlock := a, toBlock := a + 499 }] ∧
    (∀ q ∈ updatedMetadataQueries b (some a), q.span ≤ maxBlockRange) ∧
    ((updatedMetadataQueries b (some a)).map
        (fun q => queryEvents chain q.fromBlock q.toBlock)).flatten
      = (queryEvents chain a b).filter (fun e => decide (e.blockNumber ≤ a + 499)) := by
  have hb : min b (a + 499) = a + 499 := by
    rw [maxBlockRange] at hgt
    omega
  have hrange : updatedMetadataRange b (some a) = { fromBlock := a, toBlock := a + 499 } := by
    rw [updatedMetadataRange]
    simp [hb]
  refine ⟨by rw [updatedMetadataQueries, hrange], ?_, ?_⟩
  · intro q hq
    rw [updatedMetadataQueries, hrange] at hq
    simp at hq
    rw [hq]
    show a + 499 - a + 1 ≤ 500
    omega
  · rw [updatedMetadataQueries, hrange]
    simp only [List.map_cons, List.map_nil, List.flatten_cons, List.flatten_nil,
      List.append_nil]
    rw [queryEvents, queryEvents, List.filter_filter]
    refine List.filter_congr ?_
    intro e _
    by_cases h1 : a ≤ e.blockNumber <;> by_cases h2 : e.blockNumber ≤ a + 499 <;>
      simp [h1, h2] <;> omega

/-- Witness for the amended C2, at current block 2000, requested range
[0, 2000], and a chain with one event at block 600. -/
theorem metadataScan_single_clamped_query_witness :
    updatedMetadataQueries 2000 (some 0) = [{ fromBlock := 0, toBlock := 499 }] ∧
    (∀ q ∈ updatedMetadataQueries 2000 (some 0), q.span ≤ maxBlockRange) ∧
    ((updatedMetadataQueries 2000 (some 0)).map
        (fun q => queryEvents [{ blockNumber := 600, args := none }] q.fromBlock q.toBlock)).flatten
      = (queryEvents [{ blockNumber := 600, args := none }] 0 2000).filter
          (fun e => decide (e.blockNumber ≤ 0 + 499)) :=
  metadataScan_single_clamped_query [{ blockNumber := 600, args := none }] 0 2000
    (by decide) (by decide)

/-- C3, failing input for the shipped code: with current block 20000 and no
explicit fromBlock, the shipped `getTokenMetadata` queries blocks
[10000, 20000], a 10001-block window, far exceeding the 500-block ceiling the
repository's own block-limit documentation names as the bug; the updated
version of the proposed-updates document scans a window within the ceiling,
as the claim requires. -/
theorem srcMetadata_window_exceeds_limit :
    srcMetadataRange 20000 = { fromBlock := 10000, toBlock := 20000 } ∧
    (srcMetadataRange 20000).span = 10001 ∧
    ¬((srcMetadataRange 20000).span ≤ maxBlockRange) ∧
    (updatedMetadataRange 20000 none).span ≤ maxBlockRange := by
  refine ⟨by decide, by decide, by decide, by decide⟩

/-- Helper: in a pairwise-related list, every element is related to the last
element or equal to it. -/
theorem pairwise_rel_getLast {α : Type} {R : α → α → Prop} :
    ∀ (l : List α) (x : α), l.Pairwise R → l.getLast? = some x →
      ∀ y ∈ l, R y x ∨ y = x := by
  intro l
  induction l with
  | nil =>
    intro x _ hx
    simp at hx
  | cons a t ih =>
    intro x hp hx y hy
    match t, hx with
    | [], hx =>
      simp at hx hy
      right
      rw [hy, hx]
    | b :: t2, hx =>
      rw [List.getLast?_cons_cons] at hx
      rcases List.mem_cons.mp hy with hya | hyt
      · left
        rw [hya]
        have hmem : x ∈ b :: t2 := by
          have : ∀ (l2 : List α) (z : α), l2.getLast? = some z → z ∈ l2 := by
            intro l2
            induction l2 with
            | nil => intro z hz; simp at hz
            | cons c t3 ih2 =>
              intro z hz
              match t3, hz with
              | [], hz => simp at hz; simp [hz]
              | d :: t4, hz =>
                rw [List.getLast?_cons_cons] at hz
                exact List.mem_cons_of_mem c (ih2 z hz)
          exact this _ x hx
        exact (List.pairwise_cons.mp hp).1 x hmem
      · exact ih x (List.pairwise_cons.mp hp).2 hx y hyt

/-- C4: for every creation-event query result of `getTokenMetadata`: an
empty result list fails with the metadata-not-found error; a non-empty
result returns the metadata of the last element of the ascending-by-block
result list, which is the most recently mined matching event (every event in
the result is at a block not above it). -/
theorem getTokenMetadata_picks_last_event (chain : List TokenEvent) (currentBlock : Int)
    (hsorted : chain.Pairwise (fun e1 e2 => e1.blockNumber ≤ e2.blockNumber)) :
    (queryEvents chain (srcMetadataRange currentBlock).fromBlock
        (srcMetadataRange currentBlock).toBlock = [] →
      getTokenMetadataSrc chain currentBlock = Except.error MetadataError.notFound) ∧
    (∀ e a,
      (queryEvents chain (srcMetadataRange currentBlock).fromBlock
          (srcMetadataRange currentBlock).toBlock).getLast? = some e →
      e.args = some a →
      getTokenMetadataSrc chain currentBlock = Except.ok (argsToMetadata a) ∧
      ∀ e2 ∈ queryEvents chain (srcMetadataRange currentBlock).fromBlock
          (srcMetadataRange currentBlock).toBlock,
        e2.blockNumber ≤ e.blockNumber) := by
  constructor
  · intro hempty
    rw [getTokenMetadataSrc, hempty]
    rfl
  · intro e a hlast hargs
    constructor
    · rw [getTokenMetadataSrc, hlast]
      simp [hargs]
    · intro e2 he2
      have hpair : (queryEvents chain (srcMetadataRange currentBlock).fromBlock
          (srcMetadataRange currentBlock).toBlock).Pairwise
            (fun x y => x.blockNumber ≤ y.blockNumber) :=
        List.Pairwise.sublist (List.filter_sublist chain) hsorted
      rcases pairwise_rel_getLast _ e hpair hlast e2 he2 with h | h
      · exact h
      · rw [h]

/-- Witness for C4: on a chain with creation events for the token at blocks
5 and 10, `getTokenMetadata` returns the metadata of the block-10 event. -/
theorem getTokenMetadata_picks_last_event_witness :
    getTokenMetadataSrc
      [{ blockNumber := 5,
         args := some { name := "Old", symbol := "OLD", description := "d1",
                        extended := "e1", tokenUrlImage := "u1" } },
       { blockNumber := 10,
         args := some { name := "New", symbol := "NEW", description := "d2",
                        extended := "e2", tokenUrlImage := "u2" } }] 100
      = Except.ok (argsToMetadata { name := "New", symbol := "NEW", description := "d2",
                                    extended := "e2", tokenUrlImage := "u2" }) :=
  ((getTokenMetadata_picks_last_event
      [{ blockNumber := 5,
         args := some { name := "Old", symbol := "OLD", description := "d1",
                        extended := "e1", tokenUrlImage := "u1" } },
       { blockNumber := 10,
         args := some { name := "New", symbol := "NEW", description := "d2",
                        extended := "e2", tokenUrlImage := "u2" } }] 100
      (by decide)).2
    { blockNumber := 10,
      args := some { name := "New", symbol := "NEW", description := "d2",
                     extended := "e2", tokenUrlImage := "u2" } }
    { name := "New", symbol := "NEW", description := "d2",
      extended := "e2", tokenUrlImage := "u2" }
    (by decide) rfl).1

/-! ## Launch address extraction (src/token-creation/createToken.ts,
    `createTokenOnContract`, Step 8)

After the creation transaction is mined, the code scans the receipt's logs in
order and takes the emitting address of the first log whose second indexed
topic (`topics[1]`) equals `ethers.ZeroHash`; when no log matches, the result
is returned with `tokenAddress` left undefined, and nothing is thrown. -/

/-- One receipt log entry: emitting address and indexed topics. -/
structure ReceiptLog where
  address : String
  topics : List String
deriving DecidableEq, Repr

/-- A mined transaction receipt, as consumed by the extraction step. -/
structure TransactionReceipt where
  txHash : String
  logs : List ReceiptLog
deriving DecidableEq, Repr

/-- The value `createTokenOnContract` resolves with. -/
structure LaunchResult where
  txHash : String
  tokenAddress : Option String
deriving DecidableEq, Repr

/-- The constant `ethers.ZeroHash`. -/
def zeroHash : String :=
  "0x0000000000000000000000000000000000000000000000000000000000000000"

/-- The per-log test of the extraction loop:
`log.topics && log.topics[1] === ethers.ZeroHash`.  Accessing `topics[1]` on
a log with fewer than two topics yields `undefined`, which is not strictly
equal to the zero hash; `Option.get?` models this. -/
def isCreationLog (log : ReceiptLog) : Bool :=
  log.topics.get? 1 == some zeroHash

/-- Embedding of the extraction step: first matching log wins (the loop
breaks), its emitting address — not anything from its topics — becomes
`tokenAddress`, and the function returns a result in all cases. -/
def extractAddressStage (receipt : TransactionReceipt) : LaunchResult :=
  { txHash := receipt.txHash
    tokenAddress := (receipt.logs.find? isCreationLog).map ReceiptLog.address }

/-- Helper: `find?` skips a prefix on which the predicate is false. -/
theorem find?_append_of_none {α : Type} (p : α → Bool) :
    ∀ (pre rest : List α), (∀ l ∈ pre, p l = false) →
      (pre ++ rest).find? p = rest.find? p := by
  intro pre
  induction pre with
  | nil =>
    intro rest _
    rfl
  | cons a t ih =>
    intro rest hall
    have ha : p a = false := hall a (List.mem_cons_self a t)
    rw [List.cons_append, List.find?_cons_of_neg _ (by rw [ha]; exact Bool.false_ne_true)]
    exact ih rest fun l hl => hall l (List.mem_cons_of_mem a hl)

/-- C5: for every mined receipt, the operation returns the emitting address
of the first log whose second indexed topic is the all-zero hash as
`tokenAddress`; and when no log matches, it returns a result with
`tokenAddress` absent (the operation, being a total function to
`LaunchResult`, does not fail). -/
theorem extractAddressStage_first_match (receipt : TransactionReceipt) :
    (∀ pre log post,
      receipt.logs = pre ++ log :: post →
      (∀ l ∈ pre, isCreationLog l = false) →
      isCreationLog log = true →
      extractAddressStage receipt
        = { txHash := receipt.txHash, tokenAddress := some log.address }) ∧
    ((∀ l ∈ receipt.logs, isCreationLog l = false) →
      extractAddressStage receipt = { txHash := receipt.txHash, tokenAddress := none }) := by
  constructor
  · intro pre log post hsplit hpre hlog
    have hfind : receipt.logs.find? isCreationLog = some log := by
      rw [hsplit, find?_append_of_none _ pre (log :: post) hpre,
        List.find?_cons_of_pos _ hlog]
    rw [extractAddressStage, hfind]
    rfl
  · intro hall
    have hfind : receipt.logs.find? isCreationLog = none :=
      List.find?_eq_none.mpr fun l hl => by rw [hall l hl]; exact Bool.false_ne_true
    rw [extractAddressStage, hfind]
    rfl

/-- Witness for C5, on the specification's fixture: a receipt with three
logs, the second of which is the first one carrying the zero hash as its
second topic, emitted from address 0xAAA; the extraction returns 0xAAA.  The
theorem's no-match half is instantiated on the same receipt with the
matching logs removed. -/
theorem extractAddressStage_first_match_witness :
    extractAddressStage
      { txHash := "0xhash",
        logs := [{ address := "0xBBB", topics := ["0xtopic"] },
                 { address := "0xAAA", topics := ["0xtopic", zeroHash] },
                 { address := "0xCCC", topics := ["0xtopic", zeroHash] }] }
      = { txHash := "0xhash", tokenAddress := some "0xAAA" } ∧
    extractAddressStage
      { txHash := "0xhash", logs := [{ address := "0xBBB", topics := ["0xtopic"] }] }
      = { txHash := "0xhash", tokenAddress := none } :=
  ⟨(extractAddressStage_first_match
      { txHash := "0xhash",
        logs := [{ address := "0xBBB", topics := ["0xtopic"] },
                 { address := "0xAAA", topics := ["0xtopic", zeroHash] },
                 { address := "0xCCC", topics := ["0xtopic", zeroHash] }] }).1
    [{ address := "0xBBB", topics := ["0xtopic"] }]
    { address := "0xAAA", topics := ["0xtopic", zeroHash] }
    [{ address := "0xCCC", topics := ["0xtopic", zeroHash] }]
    rfl (by decide) (by decide),
   (extractAddressStage_first_match
      { txHash := "0xhash", logs := [{ address := "0xBBB", topics := ["0xtopic"] }] }).2
    (by decide)⟩

/-! ## Fee computation (src/token-creation/createToken.ts,
    `createTokenOnContract`, Steps 2 to 4)

The code reads `creationFee_()` from the contract, converts the
caller-supplied decimal string with `ethers.parseEther`, and attaches
`creationFee + valueAmount` to the transaction — all in exact `bigint`
arithmetic at 1e18 scale.  `parseEther` is embedded from the ethers v6
library semantics it invokes: a decimal string of at most 18 fractional
digits maps to `whole * 10^18 + frac * 10^(18 - frac.length)` base units;
anything else (malformed, or too many decimals) throws, modeled as `none`. -/

/-- Numeric value of a decimal digit character. -/
def digitVal (c : Char) : Nat :=
  c.toNat - 48

/-- Value of a digit string, most significant digit first. -/
def digitsToNat (cs : List Char) : Nat :=
  cs.foldl (fun acc c => 10 * acc + digitVal c) 0

/-- Split a character list at the first decimal point, keeping the dot out
of both parts; `none` when there is no decimal point. -/
def splitAtDot : List Char → List Char × Option (List Char)
  | [] => ([], none)
  | c :: rest =>
    if c = '.' then ([], some rest)
    else ((c :: (splitAtDot rest).1), (splitAtDot rest).2)

/-- The unsigned part of `ethers.parseEther`: accepts `digits`,
`digits.digits`, `.digits` and `digits.`; rejects a malformed string and
more than 18 fractional digits (the "too many decimals" fault). -/
def parseEtherDigits (cs : List Char) : Option Nat :=
  if (splitAtDot cs).1.all Char.isDigit
      && ((splitAtDot cs).2.getD []).all Char.isDigit
      && !((splitAtDot cs).1.isEmpty && ((splitAtDot cs).2.getD []).isEmpty)
      && decide (((splitAtDot cs).2.getD []).length ≤ 18) then
    some (digitsToNat (splitAtDot cs).1 * 10 ^ 18
      + digitsToNat ((splitAtDot cs).2.getD []) * 10 ^ (18 - ((splitAtDot cs).2.getD []).length))
  else
    none

/-- Embedding of `ethers.parseEther` with an optional leading minus sign. -/
def parseEther (s : String) : Option Int :=
  match s.data with
  | [] => none
  | c :: rest =>
    if c = '-' then (parseEtherDigits rest).map (fun n => -(n : Int))
    else (parseEtherDigits (c :: rest)).map (fun n => (n : Int))

/-- The payment value attached to the creation transaction:
`totalValue = creationFee + ethers.parseEther(initAmountIn)`, exact integer
addition; `none` when `parseEther` throws. -/
def attachedValue (creationFee : Int) (initAmountIn : String) : Option Int :=
  (parseEther initAmountIn).map (fun v => creationFee + v)

/-- Helper: a character list of digits contains no decimal point. -/
theorem splitAtDot_of_digits :
    ∀ (whole frac : List Char), whole.all Char.isDigit = true →
      splitAtDot (whole ++ '.' :: frac) = (whole, some frac) := by
  intro whole
  induction whole with
  | nil =>
    intro frac _
    rw [List.nil_append, splitAtDot, if_pos rfl]
  | cons c t ih =>
    intro frac hall
    rw [List.all_cons, Bool.and_eq_true] at hall
    have hc : ¬(c = '.') := by
      intro h
      rw [h] at hall
      exact absurd hall.1 (by decide)
    rw [List.cons_append, splitAtDot, if_neg hc, ih frac hall.2]

/-- C6: the payment attached to the creation transaction is exactly
`creationFee + parseEther(initAmountIn)` in integer base units; `parseEther`
scales a well-formed decimal string exactly at 1e18 (a string `w.f` with at
most 18 fractional digits parses to `w * 10^18 + f * 10^(18 - length f)`
base units); and on the specification's fixture, fee 100 plus an amount
parsing to 100 base units attaches exactly 200. -/
theorem attachedValue_exact :
    (∀ (fee : Int) (s : String) (v : Int),
      parseEther s = some v → attachedValue fee s = some (fee + v)) ∧
    (∀ (whole frac : List Char),
      whole ≠ [] → whole.all Char.isDigit = true → frac.all Char.isDigit = true →
      frac.length ≤ 18 →
      parseEther (String.mk (whole ++ '.' :: frac))
        = some ((digitsToNat whole * 10 ^ 18
            + digitsToNat frac * 10 ^ (18 - frac.length) : Nat) : Int)) ∧
    attachedValue 100 "0.0000000000000001" = some 200 := by
  refine ⟨?_, ?_, by decide⟩
  · intro fee s v h
    rw [attachedValue, h]
    rfl
  · intro whole frac hne hwhole hfrac hlen
    match whole, hne with
    | c :: t, _ =>
      have hall := hwhole
      rw [List.all_cons, Bool.and_eq_true] at hall
      have hc : ¬(c = '-') := by
        intro h
        rw [h] at hall
        exact absurd hall.1 (by decide)
      show parseEther (String.mk (c :: (t ++ '.' :: frac))) = _
      rw [parseEther]
      simp only [if_neg hc]
      have hsplit := splitAtDot_of_digits (c :: t) frac hwhole
      rw [List.cons_append] at hsplit
      rw [parseEtherDigits, hsplit]
      simp only [Option.getD_some]
      rw [if_pos]
      · rfl
      · rw [hwhole, hfrac]
        simp [hlen]

/-- Witness for C6: creation fee 100 base units plus `initAmountIn` "0.1"
(parsing to 10^17 base units) attaches exactly their sum. -/
theorem attachedValue_exact_witness :
    attachedValue 100 "0.1" = some (100 + 100000000000000000) :=
  attachedValue_exact.1 100 "0.1" 100000000000000000 (by decide)

/-! ## Error classification (src/utils/errorHandling.ts)

`parseBlockchainError` and `parseUploadError` take an arbitrary JavaScript
value (`error: any`), coerce `error?.message || ''` and `error?.status || 0`,
and match substrings/statuses in a fixed source order.  JavaScript values are
modeled as far as the classifiers inspect them; numeric payloads are modeled
as integers (every number the code compares against is an integer literal).
Calling `.includes` on a truthy non-string message raises a TypeError, which
the embedding surfaces as `Except.error`. -/

/-- A JavaScript value as seen by the error classifiers: primitives, and
objects with `message` and `status` properties.  An object without one of
the properties carries `undef` there — indistinguishable, for everything the
classifiers observe, from a missing field, since property access on it
yields `undefined` either way. -/
inductive JsValue where
  | undef
  | nullV
  | boolV (b : Bool)
  | numV (n : Int)
  | strV (s : String)
  | objV (message : JsValue) (status : JsValue)
deriving DecidableEq, Repr

/-- JavaScript truthiness (`undefined`, `null`, `false`, `0` and the empty
string are falsy). -/
def jsTruthy : JsValue → Bool
  | JsValue.undef => false
  | JsValue.nullV => false
  | JsValue.boolV b => b
  | JsValue.numV n => decide (n ≠ 0)
  | JsValue.strV s => decide (s ≠ "")
  | JsValue.objV _ _ => true

/-- Property access `error?.message`: absent properties, primitives, null
and undefined all yield `undefined`. -/
def jsMessage : JsValue → JsValue
  | JsValue.objV m _ => m
  | _ => JsValue.undef

/-- Property access `error?.status`. -/
def jsStatus : JsValue → JsValue
  | JsValue.objV _ st => st
  | _ => JsValue.undef

/-- JavaScript `a || b`. -/
def jsOr (a b : JsValue) : JsValue :=
  if jsTruthy a then a else b

/-- Does the list start with the given pattern. -/
def listStartsWith : List Char → List Char → Bool
  | [], _ => true
  | _ :: _, [] => false
  | c :: cs, d :: ds => c == d && listStartsWith cs ds

/-- Does the haystack contain the needle as a contiguous sublist. -/
def listContainsSub : List Char → List Char → Bool
  | [], needle => needle.isEmpty
  | c :: rest, needle => listStartsWith needle (c :: rest) || listContainsSub rest needle

/-- JavaScript `hay.includes(needle)` on strings. -/
def strContains (hay needle : String) : Bool :=
  listContainsSub hay.data needle.data

/-- The TokenCreationErrorType enum of errorHandling.ts. -/
inductive TokenCreationErrorType where
  | UPLOAD_FAILED
  | AUTHENTICATION_ERROR
  | INSUFFICIENT_FUNDS
  | TRANSACTION_FAILED
  | CONTRACT_ERROR
  | USER_REJECTED
  | NETWORK_ERROR
  | UNKNOWN_ERROR
deriving DecidableEq, Repr

/-- The TokenCreationError carried by a classification: its enum type, its
human-readable message, and the original raw error value. -/
structure TokenCreationError where
  type : TokenCreationErrorType
  message : String
  originalError : JsValue
deriving DecidableEq, Repr

/-- A thrown JavaScript error: the TypeError raised by calling `.includes`
on a non-string, or the RangeError raised by `BigInt(x)` on a non-integer or
non-finite number. -/
inductive JsThrow where
  | typeError
  | rangeError
deriving DecidableEq, Repr

/-- The substring checks of `parseBlockchainError` in source order, applied
to the coerced message string. -/
def classifyBlockchainMessage (error : JsValue) (errorMessage : String) : TokenCreationError :=
  if strContains errorMessage "insufficient funds" then
    { type := TokenCreationErrorType.INSUFFICIENT_FUNDS,
      message := "You do not have enough RON to complete this transaction. Make sure you have enough for gas fees plus the creation fee and initial liquidity.",
      originalError := error }
  else if strContains errorMessage "user rejected" || strContains errorMessage "User denied" then
    { type := TokenCreationErrorType.USER_REJECTED,
      message := "You rejected the transaction in your wallet. Please try again and approve the transaction.",
      originalError := error }
  else if strContains errorMessage "network" || strContains errorMessage "timeout" then
    { type := TokenCreationErrorType.NETWORK_ERROR,
      message := "Network error occurred. Please check your internet connection and try again.",
      originalError := error }
  else if strContains errorMessage "InsufficientOutput" || strContains errorMessage "InvalidAmountIn" then
    { type := TokenCreationErrorType.CONTRACT_ERROR,
      message := "Invalid initial amount. Please make sure you are providing a valid amount for initial liquidity.",
      originalError := error }
  else if strContains errorMessage "InvalidTokenMetadata" then
    { type := TokenCreationErrorType.CONTRACT_ERROR,
      message := "Invalid token metadata. Please check that all token details are properly formatted.",
      originalError := error }
  else
    { type := TokenCreationErrorType.UNKNOWN_ERROR,
      message := "An unexpected error occurred: " ++ errorMessage,
      originalError := error }

/-- Embedding of `parseBlockchainError`: coerce `error?.message || ''`; when
the coerced message is a string, classify it (all `.includes` calls
succeed); when it is a truthy non-string, the very first
`errorMessage.includes(...)` call throws a TypeError. -/
def parseBlockchainError (error : JsValue) : Except JsThrow TokenCreationError :=
  match jsOr (jsMessage error) (JsValue.strV "") with
  | JsValue.strV errorMessage => Except.ok (classifyBlockchainMessage error errorMessage)
  | _ => Except.error JsThrow.typeError

/-- JavaScript strict equality of a value with an integer literal (no
coercion: non-numbers are never strictly equal to a number). -/
def jsStrictEqNum (v : JsValue) (n : Int) : Bool :=
  match v with
  | JsValue.numV m => m == n
  | _ => false

/-- JavaScript ToNumber coercion as used by `status >= 500`; `none` is NaN.
String coercion is modeled for the empty and unsigned-integer strings. -/
def jsToNumber : JsValue → Option Int
  | JsValue.numV n => some n
  | JsValue.boolV b => some (if b then 1 else 0)
  | JsValue.nullV => some 0
  | JsValue.undef => none
  | JsValue.strV s =>
    if s.data.isEmpty then some 0
    else if s.data.all Char.isDigit then some (digitsToNat s.data)
    else none
  | JsValue.objV _ _ => none

/-- JavaScript `v >= n` for an integer literal n (false when v coerces to
NaN). -/
def jsGeNum (v : JsValue) (n : Int) : Bool :=
  match jsToNumber v with
  | some m => decide (n ≤ m)
  | none => false

/-- Embedding of `parseUploadError`: coerce `error?.status || 0`; the
401/403 status checks short-circuit before any `.includes` call, after which
a truthy non-string message throws a TypeError at
`errorMessage.includes('unauthorized')`; the remaining checks run in source
order, falling back to UPLOAD_FAILED with the raw message appended. -/
def parseUploadError (error : JsValue) : Except JsThrow TokenCreationError :=
  let status := jsOr (jsStatus error) (JsValue.numV 0)
  if jsStrictEqNum status 401 || jsStrictEqNum status 403 then
    Except.ok
      { type := TokenCreationErrorType.AUTHENTICATION_ERROR,
        message := "Authentication failed. Please make sure you are logged in to tama.meme.",
        originalError := error }
  else
    match jsOr (jsMessage error) (JsValue.strV "") with
    | JsValue.strV errorMessage =>
      if strContains errorMessage "unauthorized" then
        Except.ok
          { type := TokenCreationErrorType.AUTHENTICATION_ERROR,
            message := "Authentication failed. Please make sure you are logged in to tama.meme.",
            originalError := error }
      else if jsStrictEqNum status 413 || strContains errorMessage "too large" then
        Except.ok
          { type := TokenCreationErrorType.UPLOAD_FAILED,
            message := "Image file is too large. Please use an image smaller than 1MB.",
            originalError := error }
      else if strContains errorMessage "network" || jsStrictEqNum status 0 || jsGeNum status 500 then
        Except.ok
          { type := TokenCreationErrorType.NETWORK_ERROR,
            message := "Network error during upload. Please check your internet connection and try again.",
            originalError := error }
      else
        Except.ok
          { type := TokenCreationErrorType.UPLOAD_FAILED,
            message := "Failed to upload image: " ++ errorMessage,
            originalError := error }
    | _ => Except.error JsThrow.typeError

/-- Counterexample to C7 as stated: a raw error whose message contains both
"insufficient funds" and "User denied" is classified INSUFFICIENT_FUNDS, not
USER_REJECTED, because the substring rules are checked in a fixed source
order and the insufficient-funds rule comes first. -/
theorem errorClassification_priority_counterexample :
    strContains "insufficient funds: User denied" "User denied" = true ∧
    (parseBlockchainError
        (JsValue.objV (JsValue.strV "insufficient funds: User denied") JsValue.undef)).map
        TokenCreationError.type
      = Except.ok TokenCreationErrorType.INSUFFICIENT_FUNDS ∧
    TokenCreationErrorType.INSUFFICIENT_FUNDS ≠ TokenCreationErrorType.USER_REJECTED := by
  refine ⟨by decide, rfl, by decide⟩

/-- C7 as amended: the classification rules hold with the source's fixed
priority order made explicit.  A message containing "insufficient funds"
always classifies InsufficientFunds (it is the first rule); a message
containing "User denied" classifies UserRejected provided it does not
contain "insufficient funds"; an upload error with status 413 classifies
UploadFailed provided its message does not contain "unauthorized" (the
earlier authentication rule); and an input matching no rule classifies
UnknownError with the original raw message carried in the human-readable
message. -/
theorem errorClassification_rules :
    (∀ (e : JsValue) (s : String),
      jsOr (jsMessage e) (JsValue.strV "") = JsValue.strV s →
      (strContains s "insufficient funds" = true →
        (parseBlockchainError e).map TokenCreationError.type
          = Except.ok TokenCreationErrorType.INSUFFICIENT_FUNDS) ∧
      (strContains s "insufficient funds" = false → strContains s "User denied" = true →
        (parseBlockchainError e).map TokenCreationError.type
          = Except.ok TokenCreationErrorType.USER_REJECTED)) ∧
    (∀ (e : JsValue) (s : String),
      jsOr (jsMessage e) (JsValue.strV "") = JsValue.strV s →
      jsOr (jsStatus e) (JsValue.numV 0) = JsValue.numV 413 →
      strContains s "unauthorized" = false →
      (parseUploadError e).map TokenCreationError.type
        = Except.ok TokenCreationErrorType.UPLOAD_FAILED) ∧
    (∀ (e : JsValue) (s : String),
      jsOr (jsMessage e) (JsValue.strV "") = JsValue.strV s →
      strContains s "insufficient funds" = false →
      strContains s "user rejected" = false →
      strContains s "User denied" = false →
      strContains s "network" = false →
      strContains s "timeout" = false →
      strContains s "InsufficientOutput" = false →
      strContains s "InvalidAmountIn" = false →
      strContains s "InvalidTokenMetadata" = false →
      parseBlockchainError e
        = Except.ok { type := TokenCreationErrorType.UNKNOWN_ERROR,
                      message := "An unexpected error occurred: " ++ s,
                      originalError := e }) := by
  refine ⟨?_, ?_, ?_⟩
  · intro e s hmsg
    constructor
    · intro h1
      rw [parseBlockchainError, hmsg]
      rw [Except.map, classifyBlockchainMessage, if_pos h1]
    · intro h1 h2
      rw [parseBlockchainError, hmsg]
      rw [Except.map, classifyBlockchainMessage, if_neg (by rw [h1]; exact Bool.false_ne_true),
        if_pos (by rw [h2, Bool.or_true])]
  · intro e s hmsg hstatus hunauth
    rw [parseUploadError]
    simp only [hmsg, hstatus]
    rw [if_neg (by decide), if_neg (by rw [hunauth]; exact Bool.false_ne_true),
      if_pos (by simp [jsStrictEqNum])]
    rfl
  · intro e s hmsg h1 h2 h3 h4 h5 h6 h7 h8
    rw [parseBlockchainError, hmsg]
    show Except.ok (classifyBlockchainMessage e s) = _
    rw [classifyBlockchainMessage,
      if_neg (by rw [h1]; exact Bool.false_ne_true),
      if_neg (by rw [h2, h3]; exact Bool.false_ne_true),
      if_neg (by rw [h4, h5]; exact Bool.false_ne_true),
      if_neg (by rw [h6, h7]; exact Bool.false_ne_true),
      if_neg (by rw [h8]; exact Bool.false_ne_true)]

/-- Witness for the amended C7: a message containing only "User denied"
classifies UserRejected; a 413-status upload error with a neutral message
classifies UploadFailed; a neutral message classifies UnknownError carrying
the raw message. -/
theorem errorClassification_rules_witness :
    (parseBlockchainError (JsValue.objV (JsValue.strV "User denied transaction signature")
        JsValue.undef)).map TokenCreationError.type
      = Except.ok TokenCreationErrorType.USER_REJECTED ∧
    (parseUploadError (JsValue.objV (JsValue.strV "entity exceeds capacity")
        (JsValue.numV 413))).map TokenCreationError.type
      = Except.ok TokenCreationErrorType.UPLOAD_FAILED ∧
    parseBlockchainError (JsValue.objV (JsValue.strV "boom") JsValue.undef)
      = Except.ok { type := TokenCreationErrorType.UNKNOWN_ERROR,
                    message := "An unexpected error occurred: " ++ "boom",
                    originalError := JsValue.objV (JsValue.strV "boom") JsValue.undef } :=
  ⟨(errorClassification_rules.1 (JsValue.objV (JsValue.strV "User denied transaction signature")
      JsValue.undef) "User denied transaction signature" rfl).2 (by decide) (by decide),
   errorClassification_rules.2.1 (JsValue.objV (JsValue.strV "entity exceeds capacity")
      (JsValue.numV 413)) "entity exceeds capacity" rfl rfl (by decide),
   errorClassification_rules.2.2 (JsValue.objV (JsValue.strV "boom") JsValue.undef) "boom"
      rfl (by decide) (by decide) (by decide) (by decide) (by decide) (by decide)
      (by decide) (by decide)⟩

/-- Counterexample to C10 as stated: `parseBlockchainError` is not total
over arbitrary inputs — on an object whose message property is the number
42, the first `errorMessage.includes(...)` call is a method call on a
number, which throws a TypeError. -/
theorem parseBlockchainError_throws_counterexample :
    parseBlockchainError (JsValue.objV (JsValue.numV 42) JsValue.undef)
      = Except.error JsThrow.typeError := rfl

/-- C10 as amended: `parseBlockchainError` never throws on any input whose
coerced `error?.message || ''` is a string — in particular on null,
undefined, any object without a message field, and any primitive, all of
which coerce to the empty-string message and classify UNKNOWN_ERROR; but an
input whose message property is a truthy non-string makes it throw a
TypeError. -/
theorem parseBlockchainError_total_on_string_messages :
    (∀ (e : JsValue) (s : String),
      jsOr (jsMessage e) (JsValue.strV "") = JsValue.strV s →
      ∃ r, parseBlockchainError e = Except.ok r) ∧
    (∀ e : JsValue, jsTruthy (jsMessage e) = false →
      parseBlockchainError e
        = Except.ok { type := TokenCreationErrorType.UNKNOWN_ERROR,
                      message := "An unexpected error occurred: ",
                      originalError := e }) ∧
    (jsMessage JsValue.nullV = JsValue.undef ∧
      jsMessage JsValue.undef = JsValue.undef ∧
      jsMessage (JsValue.objV JsValue.undef JsValue.undef) = JsValue.undef) := by
  refine ⟨?_, ?_, by decide, by decide, by decide⟩
  · intro e s hmsg
    exact ⟨classifyBlockchainMessage e s, by rw [parseBlockchainError, hmsg]⟩
  · intro e hfalsy
    have hmsg : jsOr (jsMessage e) (JsValue.strV "") = JsValue.strV "" := by
      rw [jsOr, if_neg (by rw [hfalsy]; exact Bool.false_ne_true)]
    rw [parseBlockchainError, hmsg]
    show Except.ok (classifyBlockchainMessage e "") = _
    have hempty : classifyBlockchainMessage e ""
        = { type := TokenCreationErrorType.UNKNOWN_ERROR,
            message := "An unexpected error occurred: " ++ "",
            originalError := e } := rfl
    rw [hempty]
    have : ("An unexpected error occurred: " ++ "" : String)
        = "An unexpected error occurred: " := by decide
    rw [this]

/-- Witness for the amended C10: on the input null, the classifier returns
(not throws) the UNKNOWN_ERROR classification with the empty coerced
message. -/
theorem parseBlockchainError_total_witness :
    parseBlockchainError JsValue.nullV
      = Except.ok { type := TokenCreationErrorType.UNKNOWN_ERROR,
                    message := "An unexpected error occurred: ",
                    originalError := JsValue.nullV } :=
  parseBlockchainError_total_on_string_messages.2.1 JsValue.nullV (by decide)

/-! ## Curve math (src/token-info/getTokenInfo.ts, `calculateCurrentPrice`)

The function computes
`(Number(virtualEthReserve) / Number(virtualTokenReserve)) * 10**18` in
JavaScript floating point, then `ethers.formatEther(BigInt(Math.floor(price)))`.
JavaScript numbers are modeled as exact rationals plus the non-finite values
NaN and the two infinities; binary64 rounding is abstracted to exact
rationals, an abstraction the zero-divisor behavior checked here does not
depend on, since division by zero yields a non-finite value for every
numerator and non-finite values propagate through multiplication and floor
to the `BigInt` conversion, which throws a RangeError on them. -/

/-- A JavaScript number: an exact rational or a non-finite value. -/
inductive JsNum where
  | finite (q : ℚ)
  | posInf
  | negInf
  | nan
deriving DecidableEq, Repr

/-- The coercion `Number(bigint)` (rounding and overflow abstracted). -/
def numberOfInt (n : Int) : JsNum :=
  JsNum.finite (n : ℚ)

/-- JavaScript floating-point division, with IEEE special-value rules
(zeros are unsigned in this model and behave as +0). -/
def jsDivNum : JsNum → JsNum → JsNum
  | JsNum.nan, _ => JsNum.nan
  | _, JsNum.nan => JsNum.nan
  | JsNum.finite a, JsNum.finite b =>
    if b = 0 then
      if a = 0 then JsNum.nan
      else if 0 < a then JsNum.posInf
      else JsNum.negInf
    else JsNum.finite (a / b)
  | JsNum.finite _, JsNum.posInf => JsNum.finite 0
  | JsNum.finite _, JsNum.negInf => JsNum.finite 0
  | JsNum.posInf, JsNum.finite b => if 0 ≤ b then JsNum.posInf else JsNum.negInf
  | JsNum.negInf, JsNum.finite b => if 0 ≤ b then JsNum.negInf else JsNum.posInf
  | JsNum.posInf, JsNum.posInf => JsNum.nan
  | JsNum.posInf, JsNum.negInf => JsNum.nan
  | JsNum.negInf, JsNum.posInf => JsNum.nan
  | JsNum.negInf, JsNum.negInf => JsNum.nan

/-- JavaScript floating-point multiplication with IEEE special-value rules. -/
def jsMulNum : JsNum → JsNum → JsNum
  | JsNum.nan, _ => JsNum.nan
  | _, JsNum.nan => JsNum.nan
  | JsNum.finite a, JsNum.finite b => JsNum.finite (a * b)
  | JsNum.posInf, JsNum.finite b =>
    if b = 0 then JsNum.nan else if 0 < b then JsNum.posInf else JsNum.negInf
  | JsNum.finite a, JsNum.posInf =>
    if a = 0 then JsNum.nan else if 0 < a then JsNum.posInf else JsNum.negInf
  | JsNum.negInf, JsNum.finite b =>
    if b = 0 then JsNum.nan else if 0 < b then JsNum.negInf else JsNum.posInf
  | JsNum.finite a, JsNum.negInf =>
    if a = 0 then JsNum.nan else if 0 < a then JsNum.negInf else JsNum.posInf
  | JsNum.posInf, JsNum.posInf => JsNum.posInf
  | JsNum.posInf, JsNum.negInf => JsNum.negInf
  | JsNum.negInf, JsNum.posInf => JsNum.negInf
  | JsNum.negInf, JsNum.negInf => JsNum.posInf

/-- `Math.floor`: identity on non-finite values. -/
def jsFloorNum : JsNum → JsNum
  | JsNum.finite q => JsNum.finite (⌊q⌋ : ℚ)
  | x => x

/-- `BigInt(x)` on a number: exact on integral finite values, RangeError on
everything else (non-integral or non-finite). -/
def jsBigIntOfNum : JsNum → Except JsThrow Int
  | JsNum.finite q => if q.den = 1 then Except.ok q.num else Except.error JsThrow.rangeError
  | _ => Except.error JsThrow.rangeError

/-- Drop trailing zero digits. -/
def dropTrailingZeros (cs : List Char) : List Char :=
  (cs.reverse.dropWhile (fun c => c = '0')).reverse

/-- Left-pad with zero digits to the given length. -/
def padLeftZeros (cs : List Char) (n : Nat) : List Char :=
  List.replicate (n - cs.length) '0' ++ cs

/-- Embedding of `ethers.formatEther`: base units to a decimal string, with
the fractional part trimmed of trailing zeros but never empty. -/
def formatEther (n : Int) : String :=
  (if n < 0 then "-" else "") ++ toString (n.natAbs / 10 ^ 18) ++ "."
    ++ (if (dropTrailingZeros (padLeftZeros (toString (n.natAbs % 10 ^ 18)).data 18)).isEmpty
        then "0"
        else String.mk (dropTrailingZeros (padLeftZeros (toString (n.natAbs % 10 ^ 18)).data 18)))

/-- The pool record returned by the contract's `pools_` read, as typed by
the TokenPoolInfo interface. -/
structure TokenPoolInfo where
  token : String
  tokenReserve : Int
  virtualTokenReserve : Int
  ethReserve : Int
  virtualEthReserve : Int
  lastPrice : Int
  lastMcapInEth : Int
  lastTimestamp : Int
  lastBlock : Int
  creator : String
  liquidityManager : String
  poolId : String
  curveConstant : Int
deriving DecidableEq, Repr

/-- Embedding of `calculateCurrentPrice`:
`(Number(virtualEthReserve) / Number(virtualTokenReserve)) * 10**18`,
then `formatEther(BigInt(Math.floor(price)))`; the thrown RangeError of the
`BigInt` conversion surfaces as `Except.error`. -/
def calculateCurrentPrice (poolInfo : TokenPoolInfo) : Except JsThrow String :=
  match jsBigIntOfNum (jsFloorNum (jsMulNum
      (jsDivNum (numberOfInt poolInfo.virtualEthReserve)
        (numberOfInt poolInfo.virtualTokenReserve))
      (JsNum.finite ((10 : ℚ) ^ 18)))) with
  | Except.ok b => Except.ok (formatEther b)
  | Except.error e => Except.error e

/-- C8: for every pool state with `virtualTokenReserve = 0`, the price
function fails (the division yields a non-finite number, which the `BigInt`
conversion rejects with a RangeError) rather than returning a value. -/
theorem calculateCurrentPrice_zero_reserve_fails (poolInfo : TokenPoolInfo)
    (h : poolInfo.virtualTokenReserve = 0) :
    calculateCurrentPrice poolInfo = Except.error JsThrow.rangeError := by
  have h18 : ¬((10 : ℚ) ^ 18 = 0) := by positivity
  have h18pos : (0 : ℚ) < (10 : ℚ) ^ 18 := by positivity
  rw [calculateCurrentPrice, h, numberOfInt, numberOfInt]
  rcases lt_trichotomy ((poolInfo.virtualEthReserve : Int) : ℚ) 0 with hq | hq | hq
  · rw [show jsDivNum (JsNum.finite ((poolInfo.virtualEthReserve : Int) : ℚ))
        (JsNum.finite (((0 : Int) : ℚ))) = JsNum.negInf by
      rw [jsDivNum, if_pos (by norm_num), if_neg hq.ne, if_neg (not_lt.mpr hq.le)]]
    rw [show jsMulNum JsNum.negInf (JsNum.finite ((10 : ℚ) ^ 18)) = JsNum.negInf by
      rw [jsMulNum, if_neg h18, if_pos h18pos]]
    rfl
  · rw [show jsDivNum (JsNum.finite ((poolInfo.virtualEthReserve : Int) : ℚ))
        (JsNum.finite (((0 : Int) : ℚ))) = JsNum.nan by
      rw [jsDivNum, if_pos (by norm_num), if_pos hq]]
    rfl
  · rw [show jsDivNum (JsNum.finite ((poolInfo.virtualEthReserve : Int) : ℚ))
        (JsNum.finite (((0 : Int) : ℚ))) = JsNum.posInf by
      rw [jsDivNum, if_pos (by norm_num), if_neg hq.ne.symm, if_pos hq]]
    rw [show jsMulNum JsNum.posInf (JsNum.finite ((10 : ℚ) ^ 18)) = JsNum.posInf by
      rw [jsMulNum, if_neg h18, if_pos h18pos]]
    rfl

/-- Witness for C8: a concrete pool snapshot with a zero virtual token
reserve makes the price function fail. -/
theorem calculateCurrentPrice_zero_reserve_fails_witness :
    calculateCurrentPrice
      { token := "0x024ac9ebfadf58b9427b97b489b33349c8313b3b",
        tokenReserve := 0, virtualTokenReserve := 0, ethReserve := 0,
        virtualEthReserve := 1000000000000000000, lastPrice := 0,
        lastMcapInEth := 0, lastTimestamp := 0, lastBlock := 0,
        creator := "0xC", liquidityManager := "0xL", poolId := "0xP",
        curveConstant := 0 }
      = Except.error JsThrow.rangeError :=
  calculateCurrentPrice_zero_reserve_fails
    { token := "0x024ac9ebfadf58b9427b97b489b33349c8313b3b",
      tokenReserve := 0, virtualTokenReserve := 0, ethReserve := 0,
      virtualEthReserve := 1000000000000000000, lastPrice := 0,
      lastMcapInEth := 0, lastTimestamp := 0, lastBlock := 0,
      creator := "0xC", liquidityManager := "0xL", poolId := "0xP",
      curveConstant := 0 }
    rfl

end TamaTools
